import Mathlib

/-!
# Title-Number-Generator: verification of the numeric core

Shallow embedding of the numeric core of `src/script.js` (the Title Number
Generator web page).  JavaScript numbers are modelled with exact rationals
(`ℚ`); all inputs of interest are small integers on which JS floating point
arithmetic is exact for the operations performed, and the exceptional-case
branches (`=== 0` checks) are exact comparisons in the source as well.

Embedded functions (names follow the source):
 * `calculateRegression`  — script.js lines 663-702
 * `findOutlierByResidual` — script.js lines 704-725
 * `transform_fn`          — script.js lines 586-593 (section D)
 * `removeAtJS`            — the `.filter((_, idx) => idx !== k)` idiom of
                             lines 621-622
 * `jsRound`               — JavaScript `Math.round` (line 644)
 * `predict`               — the pure computational content of the form
                             submit handler, sections A-G (lines 533-644);
                             DOM reading/writing is replaced by an explicit
                             sample list argument and an `Except` result.
-/

/-- `MIN_POINTS` constant, script.js line 6. -/
def MIN_POINTS : ℕ := 2

/-- `CONFIDENCE_THRESHOLD` constant, script.js line 7 (percent). -/
def CONFIDENCE_THRESHOLD : ℚ := 90

/-- Result record `{ m, c, r2 }` returned by `calculateRegression`. -/
structure FitResult where
  m : ℚ
  c : ℚ
  r2 : ℚ
deriving DecidableEq, Repr

namespace Regression

/-- `n = x_arr.length` (script.js line 664). -/
def n (x_arr : List ℚ) : ℕ := x_arr.length

/-- `x_mean = x_arr.reduce((a,b) => a+b) / n` (script.js line 667). -/
def x_mean (x_arr : List ℚ) : ℚ := x_arr.sum / (n x_arr : ℚ)

/-- `y_mean = y_arr.reduce((a,b) => a+b) / n` (script.js line 668); note the
source divides by `n = x_arr.length`, not `y_arr.length`. -/
def y_mean (x_arr y_arr : List ℚ) : ℚ := y_arr.sum / (n x_arr : ℚ)

/-- `m_numerator` accumulated by the loop of script.js lines 673-676,
rendered as a `Finset.range` sum over the same index range `i < n`;
out-of-range indexing (never exercised by callers, which pass equal-length
arrays) is rendered by `List.getD _ _ 0`. -/
def m_numerator (x_arr y_arr : List ℚ) : ℚ :=
  ∑ i in Finset.range (n x_arr),
    (x_arr.getD i 0 - x_mean x_arr) * (y_arr.getD i 0 - y_mean x_arr y_arr)

/-- `m_denominator` accumulated by the same loop (script.js line 675). -/
def m_denominator (x_arr : List ℚ) : ℚ :=
  ∑ i in Finset.range (n x_arr), (x_arr.getD i 0 - x_mean x_arr) ^ 2

/-- `m = m_numerator / m_denominator` (script.js line 682). -/
def m (x_arr y_arr : List ℚ) : ℚ := m_numerator x_arr y_arr / m_denominator x_arr

/-- `c = y_mean - m * x_mean` (script.js line 683). -/
def c (x_arr y_arr : List ℚ) : ℚ :=
  y_mean x_arr y_arr - m x_arr y_arr * x_mean x_arr

/-- `ss_total` accumulated by the loop of script.js lines 688-692, which
runs over `i < y_arr.length`. -/
def ss_total (x_arr y_arr : List ℚ) : ℚ :=
  ∑ i in Finset.range y_arr.length, (y_arr.getD i 0 - y_mean x_arr y_arr) ^ 2

/-- `ss_residual` accumulated by the same loop (script.js lines 689-691),
with `y_predicted = m * x_arr[i] + c`. -/
def ss_residual (x_arr y_arr : List ℚ) : ℚ :=
  ∑ i in Finset.range y_arr.length,
    (y_arr.getD i 0 - (m x_arr y_arr * x_arr.getD i 0 + c x_arr y_arr)) ^ 2

/-- `r2` (script.js lines 694-699): `1 - ss_residual / ss_total`, except
that a zero `ss_total` yields `1` when `ss_residual` is zero and `0`
otherwise. -/
def r2 (x_arr y_arr : List ℚ) : ℚ :=
  if ss_total x_arr y_arr = 0 then (if ss_residual x_arr y_arr = 0 then 1 else 0)
  else 1 - ss_residual x_arr y_arr / ss_total x_arr y_arr

end Regression

/-- `calculateRegression(x_arr, y_arr)`, script.js lines 663-702.
Returns `none` where the source returns `null`: fewer than 2 points
(line 665), or a zero slope denominator (lines 678-680, checked before
the division `m_numerator / m_denominator` is performed). -/
def calculateRegression (x_arr y_arr : List ℚ) : Option FitResult :=
  if Regression.n x_arr < 2 then none
  else if Regression.m_denominator x_arr = 0 then none
  else some ⟨Regression.m x_arr y_arr, Regression.c x_arr y_arr, Regression.r2 x_arr y_arr⟩

/-- The squared residual of sample `i` under the line `y = m·x + c`:
the loop body of `findOutlierByResidual` (script.js lines 709-713). -/
def residualSq (x_prime_values y_values : List ℚ) (m c : ℚ) (i : ℕ) : ℚ :=
  (y_values.getD i 0 - (m * x_prime_values.getD i 0 + c)) ^ 2

/-- Result record of `findOutlierByResidual`.  `outlier_house` is `none`
when the source would read `x_values[-1]` (i.e. `undefined`, only possible
on empty input). -/
structure OutlierInfo where
  outlier_house : Option ℤ
  outlier_index : ℤ
deriving DecidableEq, Repr

/-- One iteration of the `findOutlierByResidual` loop (script.js lines
708-719): running state `(max_residual_sq, outlier_index)`, updated only
on strict `>`. -/
def outlierStep (x_prime_values y_values : List ℚ) (m c : ℚ)
    (st : ℚ × ℤ) (i : ℕ) : ℚ × ℤ :=
  if residualSq x_prime_values y_values m c i > st.1
  then (residualSq x_prime_values y_values m c i, (i : ℤ))
  else st

/-- `findOutlierByResidual(x_prime_values, y_values, x_values, m, c)`,
script.js lines 704-725: running-maximum scan of squared residuals over
`i < x_values.length`, state initialised to `(-1, -1)`, then
`outlier_house := x_values[outlier_index]` (reading `x_values[-1]`, i.e.
JS `undefined`, is rendered as `none`; it happens only on empty input). -/
def findOutlierByResidual (x_prime_values y_values : List ℚ) (x_values : List ℤ)
    (m c : ℚ) : OutlierInfo :=
  let st := (List.range x_values.length).foldl
    (outlierStep x_prime_values y_values m c) ((-1 : ℚ), (-1 : ℤ))
  { outlier_house := if st.2 < 0 then none else x_values.get? st.2.toNat
    outlier_index := st.2 }

/-- The `array.filter((_, idx) => idx !== k)` idiom used at script.js
lines 621-622 to drop the outlier: keep exactly the elements whose
position differs from `k`. -/
def removeAtJS {α : Type} (k : ℤ) (l : List α) : List α :=
  (l.enum.filter (fun p => (p.1 : ℤ) ≠ k)).map Prod.snd

/-- The coordinate transform selected in section D (script.js lines
586-593): `x/2` when the target parity is `0` (even), `(x+1)/2`
otherwise (odd). -/
def transform_fn (targetParity : ℤ) : ℤ → ℚ :=
  if targetParity = 0 then fun x => (x : ℚ) / 2 else fun x => ((x : ℚ) + 1) / 2

/-- JavaScript `Math.round`: round to the nearest integer, halves toward
positive infinity, i.e. `⌊q + 1/2⌋`. -/
def jsRound (q : ℚ) : ℤ := ⌊q + 1 / 2⌋

/-- A parsed sample: house number and title number (spec §3 `Sample`;
the category label plays no role in the numeric core once filtering has
selected the visible rows, so it is omitted). -/
structure Sample where
  house : ℤ
  title : ℤ
deriving DecidableEq, Repr

/-- The `analysis_level` strings of the submit handler:
`'success'` (High), `'info'` (Note), `'warning'` (Low). -/
inductive AnalysisLevel
  | success
  | info
  | warning
deriving DecidableEq, Repr

/-- The two early-return error paths of the submit handler that concern
the numeric core: section C's insufficient-data message (which interpolates
the required parity word) and section E's degenerate regression input. -/
inductive PredictError
  | insufficientData (parityType : String)
  | degenerateInput
deriving DecidableEq, Repr

/-- The data shown by `showResult` (script.js lines 647-657), restricted
to the numeric core: final rounded prediction, final slope/intercept,
analysis level, final confidence percent, the initial confidence percent
(`r2_percent_initial`, quoted in the 'info' message), and the excluded
house number (quoted in the 'info' message, `none` otherwise). -/
structure PredictionOutcome where
  finalResult : ℤ
  m : ℚ
  c : ℚ
  level : AnalysisLevel
  r2_percent : ℚ
  r2_percent_initial : ℚ
  excluded_house : Option ℤ
deriving DecidableEq, Repr

/-- `parityType` (script.js line 540): the word interpolated into the
insufficient-data message. -/
def parityTypeOf (targetParity : ℤ) : String :=
  if targetParity = 0 then "even" else "odd"

/-- Section B's parity filter (script.js lines 562-577): keep the samples
whose house number has the same JS-remainder parity as the target
(`x_val % 2 === targetParity`; JS `%` is the truncated remainder,
`Int.tmod`). -/
def filteredSamples (samples : List Sample) (x_target : ℤ) : List Sample :=
  samples.filter (fun s => s.house.tmod 2 = x_target.tmod 2)

/-- `filtered_x` (script.js line 543/572): house numbers of the retained
samples, in order. -/
def housesOf (samples : List Sample) (x_target : ℤ) : List ℤ :=
  (filteredSamples samples x_target).map (fun s => s.house)

/-- `filtered_y` (script.js line 544/573): title numbers of the retained
samples, in order, as regression inputs. -/
def titlesOf (samples : List Sample) (x_target : ℤ) : List ℚ :=
  (filteredSamples samples x_target).map (fun s => (s.title : ℚ))

/-- `x_prime_values` (script.js line 595): the retained house numbers
transformed by the parity-selected `transform_fn`. -/
def xPrimeOf (samples : List Sample) (x_target : ℤ) : List ℚ :=
  (housesOf samples x_target).map (transform_fn (x_target.tmod 2))

/-- The pure computational content of the form submit handler, sections
A-G (script.js lines 533-644).  Section A's `parseInt`/`isNaN` guard and
section B's DOM visibility/checkbox filtering are outside the numeric
core: the function receives the already-parsed visible samples and an
integer target.  Everything from the parity filter on mirrors the source
line by line. -/
def predict (samples : List Sample) (x_target : ℤ) :
    Except PredictError PredictionOutcome :=
  let targetParity := x_target.tmod 2
  let filtered_x := housesOf samples x_target
  let filtered_y := titlesOf samples x_target
  if filtered_x.length < MIN_POINTS then
    Except.error (PredictError.insufficientData (parityTypeOf targetParity))
  else
    let x_prime_values := xPrimeOf samples x_target
    match calculateRegression x_prime_values filtered_y with
    | none => Except.error PredictError.degenerateInput
    | some main_regression =>
      let r2_percent_initial := main_regression.r2 * 100
      let step : FitResult × ℚ × AnalysisLevel × Option ℤ :=
        if r2_percent_initial < CONFIDENCE_THRESHOLD ∧ 3 ≤ filtered_x.length then
          let outlier_info := findOutlierByResidual x_prime_values filtered_y
            filtered_x main_regression.m main_regression.c
          let corrected_x_prime := removeAtJS outlier_info.outlier_index x_prime_values
          let corrected_y := removeAtJS outlier_info.outlier_index filtered_y
          match calculateRegression corrected_x_prime corrected_y with
          | some corrected_regression =>
            if corrected_regression.r2 * 100 ≥ CONFIDENCE_THRESHOLD then
              (corrected_regression, corrected_regression.r2 * 100,
                AnalysisLevel.info, outlier_info.outlier_house)
            else
              (main_regression, r2_percent_initial, AnalysisLevel.warning, none)
          | none =>
            (main_regression, r2_percent_initial, AnalysisLevel.warning, none)
        else if r2_percent_initial < CONFIDENCE_THRESHOLD then
          (main_regression, r2_percent_initial, AnalysisLevel.warning, none)
        else
          (main_regression, r2_percent_initial, AnalysisLevel.success, none)
      let final_regression := step.1
      let n_target := transform_fn targetParity x_target
      let y_target := final_regression.m * n_target + final_regression.c
      Except.ok
        { finalResult := jsRound y_target
          m := final_regression.m
          c := final_regression.c
          level := step.2.2.1
          r2_percent := step.2.1
          r2_percent_initial := r2_percent_initial
          excluded_house := step.2.2.2 }

/-- A list's sum is the sum of its `getD`-entries over `Finset.range`. -/
lemma sum_getD_range (l : List ℚ) :
    ∑ i in Finset.range l.length, l.getD i 0 = l.sum := by
  induction l with
  | nil => simp
  | cons a t ih =>
    rw [List.length_cons, Finset.sum_range_succ']
    simp only [List.getD_cons_succ, List.getD_cons_zero, List.sum_cons]
    rw [ih]; ring

/-- `calculateRegression` succeeds exactly on inputs with at least two
points and non-zero slope denominator, and then returns the
`m`/`c`/`r2` of the `Regression` formulas. -/
lemma calculateRegression_eq_some_iff (x y : List ℚ) (fit : FitResult) :
    calculateRegression x y = some fit ↔
      2 ≤ x.length ∧ Regression.m_denominator x ≠ 0 ∧
        fit = ⟨Regression.m x y, Regression.c x y, Regression.r2 x y⟩ := by
  rw [calculateRegression, Regression.n]
  split_ifs with h1 h2
  · exact ⟨fun h => by simp at h, fun h => absurd h.1 (by omega)⟩
  · exact ⟨fun h => by simp at h, fun h => absurd h2 h.2.1⟩
  · constructor
    · intro h
      exact ⟨by omega, h2, ((Option.some.injEq _ _).mp h).symm⟩
    · rintro ⟨-, -, rfl⟩; rfl

/-- `calculateRegression` returns `null` exactly on short inputs or a zero
slope denominator. -/
lemma calculateRegression_eq_none_iff (x y : List ℚ) :
    calculateRegression x y = none ↔
      x.length < 2 ∨ Regression.m_denominator x = 0 := by
  rw [calculateRegression, Regression.n]
  split_ifs with h1 h2
  · simp [h1]
  · simp [h2]
  · simp [h1, h2]

/-- The slope denominator vanishes exactly when every `x`-entry equals the
first one (all `x`-coordinates identical). -/
lemma m_denominator_eq_zero_iff (x : List ℚ) (h2 : 2 ≤ x.length) :
    Regression.m_denominator x = 0 ↔
      ∀ i < x.length, x.getD i 0 = x.getD 0 0 := by
  have hlen : 0 < x.length := by omega
  rw [Regression.m_denominator, Regression.n]
  constructor
  · intro h0
    have hz : ∀ i ∈ Finset.range x.length, (x.getD i 0 - Regression.x_mean x) ^ 2 = 0 :=
      (Finset.sum_eq_zero_iff_of_nonneg (fun i _ => sq_nonneg _)).mp h0
    have hmean : ∀ i < x.length, x.getD i 0 = Regression.x_mean x := by
      intro i hi
      have := hz i (Finset.mem_range.mpr hi)
      have := pow_eq_zero_iff (n := 2) (by norm_num) |>.mp this
      linarith [sub_eq_zero.mp this]
    intro i hi
    rw [hmean i hi, hmean 0 hlen]
  · intro hall
    have hsum : x.sum = (x.length : ℚ) * x.getD 0 0 := by
      rw [← sum_getD_range]
      rw [Finset.sum_congr rfl (fun i hi => hall i (Finset.mem_range.mp hi))]
      rw [Finset.sum_const, Finset.card_range, nsmul_eq_mul]
    have hxm : Regression.x_mean x = x.getD 0 0 := by
      rw [Regression.x_mean, Regression.n, hsum]
      field_simp
    refine Finset.sum_eq_zero fun i hi => ?_
    rw [hall i (Finset.mem_range.mp hi), hxm]
    ring

/-- `ss_total` is a sum of squares, hence non-negative. -/
lemma ss_total_nonneg (x y : List ℚ) : 0 ≤ Regression.ss_total x y :=
  Finset.sum_nonneg fun _ _ => sq_nonneg _

/-- `ss_residual` is a sum of squares, hence non-negative. -/
lemma ss_residual_nonneg (x y : List ℚ) : 0 ≤ Regression.ss_residual x y :=
  Finset.sum_nonneg fun _ _ => sq_nonneg _

/-- `m_denominator` is a sum of squares, hence non-negative. -/
lemma m_denominator_nonneg (x : List ℚ) : 0 ≤ Regression.m_denominator x :=
  Finset.sum_nonneg fun _ _ => sq_nonneg _

/-- Key ordinary-least-squares identity: with the fitted slope and
intercept, the residual sum of squares falls short of the total sum of
squares by exactly `m_numerator² / m_denominator`. -/
lemma ss_residual_eq_sub (x y : List ℚ) (hy : y.length = x.length)
    (hden : Regression.m_denominator x ≠ 0) :
    Regression.ss_residual x y =
      Regression.ss_total x y -
        Regression.m_numerator x y ^ 2 / Regression.m_denominator x := by
  have key : ∀ i ∈ Finset.range y.length,
      (y.getD i 0 - (Regression.m x y * x.getD i 0 + Regression.c x y)) ^ 2
        = (y.getD i 0 - Regression.y_mean x y) ^ 2
          - 2 * Regression.m x y *
            ((x.getD i 0 - Regression.x_mean x) * (y.getD i 0 - Regression.y_mean x y))
          + Regression.m x y ^ 2 * (x.getD i 0 - Regression.x_mean x) ^ 2 := by
    intro i _
    rw [Regression.c]
    ring
  have h1 : ∑ i in Finset.range y.length,
      2 * Regression.m x y *
        ((x.getD i 0 - Regression.x_mean x) * (y.getD i 0 - Regression.y_mean x y))
      = 2 * Regression.m x y * Regression.m_numerator x y := by
    rw [← Finset.mul_sum, hy, Regression.m_numerator, Regression.n]
  have h2 : ∑ i in Finset.range y.length,
      Regression.m x y ^ 2 * (x.getD i 0 - Regression.x_mean x) ^ 2
      = Regression.m x y ^ 2 * Regression.m_denominator x := by
    rw [← Finset.mul_sum, hy, Regression.m_denominator, Regression.n]
  rw [Regression.ss_residual, Finset.sum_congr rfl key, Finset.sum_add_distrib,
    Finset.sum_sub_distrib, h1, h2, ← Regression.ss_total, Regression.m]
  field_simp
  ring

/-- The computed coefficient of determination always lies in `[0, 1]`
(exact arithmetic) once the slope denominator is non-zero. -/
lemma r2_mem_unit (x y : List ℚ) (hy : y.length = x.length)
    (hden : Regression.m_denominator x ≠ 0) :
    0 ≤ Regression.r2 x y ∧ Regression.r2 x y ≤ 1 := by
  rw [Regression.r2]
  split_ifs with h0 h1
  · norm_num
  · norm_num
  · have htot : 0 < Regression.ss_total x y :=
      lt_of_le_of_ne (ss_total_nonneg x y) (Ne.symm h0)
    have hdpos : 0 < Regression.m_denominator x :=
      lt_of_le_of_ne (m_denominator_nonneg x) (Ne.symm hden)
    have hres_le : Regression.ss_residual x y ≤ Regression.ss_total x y := by
      rw [ss_residual_eq_sub x y hy hden]
      have : 0 ≤ Regression.m_numerator x y ^ 2 / Regression.m_denominator x :=
        div_nonneg (sq_nonneg _) (le_of_lt hdpos)
      linarith
    constructor
    · have : Regression.ss_residual x y / Regression.ss_total x y ≤ 1 :=
        (div_le_one htot).mpr hres_le
      linarith
    · have : 0 ≤ Regression.ss_residual x y / Regression.ss_total x y :=
        div_nonneg (ss_residual_nonneg x y) (le_of_lt htot)
      linarith

/-- Squared residuals are non-negative. -/
lemma residualSq_nonneg (xp y : List ℚ) (m c : ℚ) (i : ℕ) :
    0 ≤ residualSq xp y m c i := sq_nonneg _

/-- Invariant of the `findOutlierByResidual` running-maximum loop: after
scanning indices `0, …, nn-1` (with `nn > 0`) the state holds the first
index attaining the maximum squared residual, together with that
residual. -/
lemma outlier_fold_spec (xp y : List ℚ) (m c : ℚ) :
    ∀ nn : ℕ, 0 < nn →
      ∃ k : ℕ, k < nn ∧
        (List.range nn).foldl (outlierStep xp y m c) ((-1 : ℚ), (-1 : ℤ))
          = (residualSq xp y m c k, (k : ℤ)) ∧
        (∀ j < nn, residualSq xp y m c j ≤ residualSq xp y m c k) ∧
        (∀ j < k, residualSq xp y m c j < residualSq xp y m c k) := by
  intro nn
  induction nn with
  | zero => omega
  | succ n ih =>
    intro _
    rcases Nat.eq_zero_or_pos n with hn | hn
    · subst hn
      refine ⟨0, by omega, ?_, ?_, ?_⟩
      · have h1 : List.range 1 = [0] := rfl
        rw [h1]
        simp only [List.foldl_cons, List.foldl_nil, outlierStep]
        rw [if_pos]
        exact lt_of_lt_of_le (by norm_num) (residualSq_nonneg xp y m c 0)
      · intro j hj
        have : j = 0 := by omega
        rw [this]
      · intro j hj; omega
    · obtain ⟨k, hk, hfold, hmax, hstrict⟩ := ih hn
      rw [List.range_succ, List.foldl_append, hfold]
      simp only [List.foldl_cons, List.foldl_nil, outlierStep]
      by_cases hgt : residualSq xp y m c n > residualSq xp y m c k
      · rw [if_pos hgt]
        refine ⟨n, by omega, rfl, ?_, ?_⟩
        · intro j hj
          rcases Nat.lt_succ_iff_lt_or_eq.mp hj with h | h
          · exact le_of_lt (lt_of_le_of_lt (hmax j h) hgt)
          · rw [h]
        · intro j hj
          exact lt_of_le_of_lt (hmax j hj) hgt
      · rw [if_neg hgt]
        refine ⟨k, by omega, rfl, ?_, hstrict⟩
        intro j hj
        rcases Nat.lt_succ_iff_lt_or_eq.mp hj with h | h
        · exact hmax j h
        · rw [h]; exact not_lt.mp hgt

/-- Characterisation of `findOutlierByResidual` on non-empty input: the
returned index is a natural number in range, it is the first index
attaining the maximum squared residual, and the returned house number is
the `x_values` entry at that index. -/
lemma findOutlierByResidual_spec (xp y : List ℚ) (xv : List ℤ) (m c : ℚ)
    (h : xv ≠ []) :
    ∃ k : ℕ, k < xv.length ∧
      findOutlierByResidual xp y xv m c = ⟨xv.get? k, (k : ℤ)⟩ ∧
      (∀ j < xv.length, residualSq xp y m c j ≤ residualSq xp y m c k) ∧
      (∀ j < k, residualSq xp y m c j < residualSq xp y m c k) := by
  have hlen : 0 < xv.length := List.length_pos.mpr h
  obtain ⟨k, hk, hfold, hmax, hstrict⟩ := outlier_fold_spec xp y m c xv.length hlen
  refine ⟨k, hk, ?_, hmax, hstrict⟩
  rw [findOutlierByResidual]
  simp only [hfold]
  have hneg : ¬ ((k : ℤ) < 0) := by omega
  rw [if_neg hneg]
  simp

/-- Every index in `enumFrom i l` is at least `i`. -/
lemma fst_ge_of_mem_enumFrom {α : Type} :
    ∀ (l : List α) (i : ℕ) (p : ℕ × α), p ∈ List.enumFrom i l → i ≤ p.1 := by
  intro l
  induction l with
  | nil => intro i p hp; simp at hp
  | cons a t ih =>
    intro i p hp
    rw [List.enumFrom_cons, List.mem_cons] at hp
    rcases hp with h | h
    · rw [h]
    · exact Nat.le_of_succ_le (ih (i + 1) p h)

/-- Filtering out index `k` keeps everything when every index present is
above `k`. -/
lemma enumFrom_filter_ne_of_lt {α : Type} (l : List α) (i : ℕ) (k : ℤ)
    (hk : k < (i : ℤ)) :
    (List.enumFrom i l).filter (fun p => (p.1 : ℤ) ≠ k) = List.enumFrom i l := by
  rw [List.filter_eq_self]
  intro p hp
  have := fst_ge_of_mem_enumFrom l i p hp
  simp only [ne_eq, decide_eq_true_eq]
  omega

/-- Offset version of `removeAtJS k l = l.eraseIdx k`. -/
lemma removeAtJS_aux {α : Type} :
    ∀ (l : List α) (i k : ℕ),
      ((List.enumFrom i l).filter (fun p => (p.1 : ℤ) ≠ (i : ℤ) + (k : ℤ))).map Prod.snd
        = l.eraseIdx k := by
  intro l
  induction l with
  | nil => intro i k; rfl
  | cons a t ih =>
    intro i k
    cases k with
    | zero =>
      rw [List.enumFrom_cons, List.filter_cons]
      have hhead : ¬ ((i : ℤ) ≠ (i : ℤ) + ((0 : ℕ) : ℤ)) := by omega
      rw [if_neg (by simp)]
      rw [enumFrom_filter_ne_of_lt t (i + 1) ((i : ℤ) + ((0 : ℕ) : ℤ)) (by push_cast; omega)]
      rw [List.enumFrom_map_snd]
      rfl
    | succ k' =>
      rw [List.enumFrom_cons, List.filter_cons]
      have hhead : ((i : ℤ) ≠ (i : ℤ) + ((k' + 1 : ℕ) : ℤ)) := by push_cast; omega
      rw [if_pos (by simpa using hhead)]
      rw [List.map_cons]
      have hcast : ((i : ℤ) + ((k' + 1 : ℕ) : ℤ)) = (((i + 1 : ℕ)) : ℤ) + (k' : ℤ) := by
        push_cast; ring
      rw [hcast, ih (i + 1) k']
      rfl

/-- `array.filter((_, idx) => idx !== k)` is `List.eraseIdx` for an
in-range (or any natural) `k`. -/
lemma removeAtJS_eq_eraseIdx {α : Type} (l : List α) (k : ℕ) :
    removeAtJS (k : ℤ) l = l.eraseIdx k := by
  have h := removeAtJS_aux l 0 k
  rw [removeAtJS, List.enum]
  simpa using h

/-- Entries strictly before the erased index are unchanged. -/
lemma eraseIdx_getD_of_lt {α : Type} :
    ∀ (l : List α) (k j : ℕ) (d : α), j < k →
      (l.eraseIdx k).getD j d = l.getD j d := by
  intro l
  induction l with
  | nil => intro k j d _; rfl
  | cons a t ih =>
    intro k j d hj
    cases k with
    | zero => omega
    | succ k' =>
      rw [List.eraseIdx_cons_succ]
      cases j with
      | zero => rfl
      | succ j' =>
        rw [List.getD_cons_succ, List.getD_cons_succ]
        exact ih k' j' d (by omega)

/-- Entries from the erased index on shift down by one. -/
lemma eraseIdx_getD_of_ge {α : Type} :
    ∀ (l : List α) (k j : ℕ) (d : α), k ≤ j →
      (l.eraseIdx k).getD j d = l.getD (j + 1) d := by
  intro l
  induction l with
  | nil => intro k j d _; rfl
  | cons a t ih =>
    intro k j d hj
    cases k with
    | zero => rw [List.eraseIdx_cons_zero, List.getD_cons_succ]
    | succ k' =>
      rw [List.eraseIdx_cons_succ]
      cases j with
      | zero => omega
      | succ j' =>
        rw [List.getD_cons_succ, List.getD_cons_succ]
        exact ih k' j' d (by omega)

/-- `getD` through a `map`, for in-range indices. -/
lemma getD_map_of_lt {α β : Type} (f : α → β) (l : List α) (i : ℕ) (d : β)
    (d' : α) (h : i < l.length) :
    (l.map f).getD i d = f (l.getD i d') := by
  rw [List.getD_eq_getElem?_getD, List.getD_eq_getElem?_getD,
    List.getElem?_eq_getElem (by simpa using h), List.getElem?_eq_getElem h,
    List.getElem_map]
  rfl

/-- `housesOf` and `titlesOf` have the length of the filtered sample
list. -/
lemma housesOf_length (samples : List Sample) (t : ℤ) :
    (housesOf samples t).length = (filteredSamples samples t).length := by
  rw [housesOf, List.length_map]

/-- See `housesOf_length`. -/
lemma titlesOf_length (samples : List Sample) (t : ℤ) :
    (titlesOf samples t).length = (filteredSamples samples t).length := by
  rw [titlesOf, List.length_map]

/-- `xPrimeOf` has the length of `housesOf`. -/
lemma xPrimeOf_length (samples : List Sample) (t : ℤ) :
    (xPrimeOf samples t).length = (housesOf samples t).length := by
  rw [xPrimeOf, List.length_map]

/-- On non-negative arguments the JS remainder (`Int.tmod`) agrees with
the mathematical remainder (`Int.emod`). -/
lemma tmod_two_eq_emod (a : ℤ) (h : 0 ≤ a) : a.tmod 2 = a % 2 :=
  Int.tmod_eq_emod h (by norm_num)

/-- `predict` reports the insufficient-data error (with the required
parity word) exactly when fewer than `MIN_POINTS` matching-parity samples
remain. -/
lemma predict_insufficient_iff (samples : List Sample) (t : ℤ) :
    predict samples t =
        Except.error (PredictError.insufficientData (parityTypeOf (t.tmod 2)))
      ↔ (housesOf samples t).length < MIN_POINTS := by
  rw [predict]
  by_cases h : (housesOf samples t).length < MIN_POINTS
  · rw [if_pos h]
    simp [h]
  · rw [if_neg h]
    simp only [h, iff_false]
    cases hreg : calculateRegression (xPrimeOf samples t) (titlesOf samples t) with
    | none => simp [hreg]
    | some fit => simp [hreg]

/-- Every successful prediction is obtained from some fit (the main one,
or one computed on an outlier-removed subset) by evaluating the line at
the transformed target and rounding with `jsRound`; in particular the
target is transformed with the same parity-selected `transform_fn` used
for the samples. -/
lemma predict_ok_shape (samples : List Sample) (t : ℤ) (p : PredictionOutcome)
    (h : predict samples t = Except.ok p) :
    ∃ fin : FitResult, p.m = fin.m ∧ p.c = fin.c ∧
      p.finalResult = jsRound (fin.m * transform_fn (t.tmod 2) t + fin.c) ∧
      (calculateRegression (xPrimeOf samples t) (titlesOf samples t) = some fin ∨
        ∃ k : ℤ,
          calculateRegression (removeAtJS k (xPrimeOf samples t))
            (removeAtJS k (titlesOf samples t)) = some fin) := by
  simp only [predict] at h
  split at h
  · cases h
  · split at h
    · cases h
    next fit0 hreg =>
      split at h
      · split at h
        next fitc hc =>
          split at h
          · obtain rfl := Except.ok.inj h
            exact ⟨fitc, rfl, rfl, rfl, Or.inr ⟨_, hc⟩⟩
          · obtain rfl := Except.ok.inj h
            exact ⟨fit0, rfl, rfl, rfl, Or.inl hreg⟩
        next hc =>
          obtain rfl := Except.ok.inj h
          exact ⟨fit0, rfl, rfl, rfl, Or.inl hreg⟩
      · split at h
        · obtain rfl := Except.ok.inj h
          exact ⟨fit0, rfl, rfl, rfl, Or.inl hreg⟩
        · obtain rfl := Except.ok.inj h
          exact ⟨fit0, rfl, rfl, rfl, Or.inl hreg⟩

/-- The end-to-end example input of spec §8: samples
(house 2, title 100), (house 4, title 102), (house 6, title 200). -/
def samples0 : List Sample := [⟨2, 100⟩, ⟨4, 102⟩, ⟨6, 200⟩]

lemma samples0_tmod : (8 : ℤ).tmod 2 = 0 := by decide

lemma samples0_filtered : filteredSamples samples0 8 = samples0 := by decide

lemma samples0_houses : housesOf samples0 8 = [2, 4, 6] := by
  rw [housesOf, samples0_filtered]; decide

lemma samples0_titles : titlesOf samples0 8 = [100, 102, 200] := by
  rw [titlesOf, samples0_filtered]; norm_num [samples0]

lemma samples0_xprime : xPrimeOf samples0 8 = [1, 2, 3] := by
  rw [xPrimeOf, samples0_houses, samples0_tmod]
  norm_num [transform_fn]

lemma samples0_fit0 : calculateRegression [1, 2, 3] [100, 102, 200] =
    some ⟨50, 34, 625 / 817⟩ := by
  norm_num [calculateRegression, Regression.n, Regression.m, Regression.c,
    Regression.r2, Regression.m_numerator, Regression.m_denominator,
    Regression.x_mean, Regression.y_mean, Regression.ss_total,
    Regression.ss_residual, Finset.sum_range_succ]

lemma samples0_outlier :
    findOutlierByResidual [1, 2, 3] [100, 102, 200] [2, 4, 6] 50 34 =
      ⟨some 4, 1⟩ := by
  norm_num [findOutlierByResidual, outlierStep, residualSq, List.range_succ,
    OutlierInfo.mk.injEq]

lemma samples0_removed_x : removeAtJS 1 ([1, 2, 3] : List ℚ) = [1, 3] := by
  norm_num [removeAtJS, List.enum, List.enumFrom]

lemma samples0_removed_y : removeAtJS 1 ([100, 102, 200] : List ℚ) = [100, 200] := by
  norm_num [removeAtJS, List.enum, List.enumFrom]

lemma samples0_fitc : calculateRegression [1, 3] [100, 200] = some ⟨50, 50, 1⟩ := by
  norm_num [calculateRegression, Regression.n, Regression.m, Regression.c,
    Regression.r2, Regression.m_numerator, Regression.m_denominator,
    Regression.x_mean, Regression.y_mean, Regression.ss_total,
    Regression.ss_residual, Finset.sum_range_succ]

lemma samples0_predict : predict samples0 8 =
    Except.ok ⟨250, 50, 50, AnalysisLevel.info, 100, 62500 / 817, some 4⟩ := by
  rw [predict, samples0_tmod, samples0_houses, samples0_titles, samples0_xprime]
  simp only [samples0_fit0, samples0_outlier, samples0_removed_x, samples0_removed_y,
    samples0_fitc, MIN_POINTS, CONFIDENCE_THRESHOLD]
  norm_num [transform_fn, jsRound]

/-- Initial regression of the spec §8 example, phrased over the pipeline
values. -/
lemma samples0_fit0' :
    calculateRegression (xPrimeOf samples0 8) (titlesOf samples0 8) =
      some ⟨50, 34, 625 / 817⟩ := by
  rw [samples0_xprime, samples0_titles]
  exact samples0_fit0

/-- **C3.** For every regression input with at least 2 points and non-zero
x-variance, the engine returns slope `Σ((xᵢ−x̄)(yᵢ−ȳ)) / Σ((xᵢ−x̄)²)`,
intercept `ȳ − slope·x̄`, and `R² = 1 − SSresidual/SStotal`, except that a
zero `SStotal` yields `R² = 1` when `SSresidual = 0` and `R² = 0`
otherwise (with `x̄`, `ȳ` the means of the two coordinate lists). -/
theorem C3_regression_formula (x y : List ℚ) (h2 : 2 ≤ x.length)
    (hy : y.length = x.length)
    (hvar : ∑ i in Finset.range x.length,
        (x.getD i 0 - x.sum / (x.length : ℚ)) ^ 2 ≠ 0) :
    calculateRegression x y =
      some ⟨Regression.m x y, Regression.c x y, Regression.r2 x y⟩ ∧
    Regression.m x y =
      (∑ i in Finset.range x.length,
        (x.getD i 0 - x.sum / (x.length : ℚ)) * (y.getD i 0 - y.sum / (y.length : ℚ)))
      / (∑ i in Finset.range x.length, (x.getD i 0 - x.sum / (x.length : ℚ)) ^ 2) ∧
    Regression.c x y =
      y.sum / (y.length : ℚ) - Regression.m x y * (x.sum / (x.length : ℚ)) ∧
    Regression.ss_total x y =
      ∑ i in Finset.range y.length, (y.getD i 0 - y.sum / (y.length : ℚ)) ^ 2 ∧
    Regression.ss_residual x y =
      ∑ i in Finset.range y.length,
        (y.getD i 0 - (Regression.m x y * x.getD i 0 + Regression.c x y)) ^ 2 ∧
    Regression.r2 x y =
      (if Regression.ss_total x y = 0
       then (if Regression.ss_residual x y = 0 then 1 else 0)
       else 1 - Regression.ss_residual x y / Regression.ss_total x y) := by
  have hden : Regression.m_denominator x ≠ 0 := by
    rw [Regression.m_denominator, Regression.x_mean, Regression.n]
    exact hvar
  refine ⟨?_, ?_, ?_, ?_, ?_, ?_⟩
  · rw [calculateRegression_eq_some_iff]
    exact ⟨h2, hden, rfl⟩
  · rw [Regression.m, Regression.m_numerator, Regression.m_denominator,
      Regression.x_mean, Regression.y_mean, Regression.n, hy]
  · rw [Regression.c, Regression.x_mean, Regression.y_mean, Regression.n, hy]
  · rw [Regression.ss_total, Regression.y_mean, Regression.n, hy]
  · rw [Regression.ss_residual]
  · rw [Regression.r2]

/-- Witness for C3 at `x = [1, 2]`, `y = [3, 5]`. -/
theorem C3_regression_formula_witness :
    (2 ≤ ([1, 2] : List ℚ).length ∧
      ([3, 5] : List ℚ).length = ([1, 2] : List ℚ).length ∧
      ∑ i in Finset.range ([1, 2] : List ℚ).length,
        (([1, 2] : List ℚ).getD i 0
          - ([1, 2] : List ℚ).sum / (([1, 2] : List ℚ).length : ℚ)) ^ 2 ≠ 0) ∧
    (calculateRegression [1, 2] [3, 5] =
      some ⟨Regression.m [1, 2] [3, 5], Regression.c [1, 2] [3, 5],
        Regression.r2 [1, 2] [3, 5]⟩ ∧
    Regression.m [1, 2] [3, 5] =
      (∑ i in Finset.range ([1, 2] : List ℚ).length,
        (([1, 2] : List ℚ).getD i 0 - ([1, 2] : List ℚ).sum / (([1, 2] : List ℚ).length : ℚ))
          * (([3, 5] : List ℚ).getD i 0 - ([3, 5] : List ℚ).sum / (([3, 5] : List ℚ).length : ℚ)))
      / (∑ i in Finset.range ([1, 2] : List ℚ).length,
        (([1, 2] : List ℚ).getD i 0
          - ([1, 2] : List ℚ).sum / (([1, 2] : List ℚ).length : ℚ)) ^ 2) ∧
    Regression.c [1, 2] [3, 5] =
      ([3, 5] : List ℚ).sum / (([3, 5] : List ℚ).length : ℚ)
        - Regression.m [1, 2] [3, 5] * (([1, 2] : List ℚ).sum / (([1, 2] : List ℚ).length : ℚ)) ∧
    Regression.ss_total [1, 2] [3, 5] =
      ∑ i in Finset.range ([3, 5] : List ℚ).length,
        (([3, 5] : List ℚ).getD i 0 - ([3, 5] : List ℚ).sum / (([3, 5] : List ℚ).length : ℚ)) ^ 2 ∧
    Regression.ss_residual [1, 2] [3, 5] =
      ∑ i in Finset.range ([3, 5] : List ℚ).length,
        (([3, 5] : List ℚ).getD i 0
          - (Regression.m [1, 2] [3, 5] * ([1, 2] : List ℚ).getD i 0
            + Regression.c [1, 2] [3, 5])) ^ 2 ∧
    Regression.r2 [1, 2] [3, 5] =
      (if Regression.ss_total [1, 2] [3, 5] = 0
       then (if Regression.ss_residual [1, 2] [3, 5] = 0 then 1 else 0)
       else 1 - Regression.ss_residual [1, 2] [3, 5] / Regression.ss_total [1, 2] [3, 5])) :=
  ⟨⟨by norm_num, by norm_num,
      by norm_num [Finset.sum_range_succ]⟩,
    C3_regression_formula [1, 2] [3, 5] (by norm_num) (by norm_num)
      (by norm_num [Finset.sum_range_succ])⟩

/-- **C4.** With at least 2 points, the engine signals failure (returns
`none`, i.e. `DegenerateInput`) if and only if all x-coordinates are
equal — regardless of the y-values, which do not appear in the
condition.  (In the embedding, as in the source, the zero-denominator
test is a separate guard taken before the branch that divides by the
denominator.) -/
theorem C4_degenerate_iff (x y : List ℚ) (h2 : 2 ≤ x.length) :
    calculateRegression x y = none ↔
      ∀ i < x.length, x.getD i 0 = x.getD 0 0 := by
  rw [calculateRegression_eq_none_iff, ← m_denominator_eq_zero_iff x h2]
  constructor
  · rintro (h | h)
    · omega
    · exact h
  · exact Or.inr

/-- Witness for C4 at `x = [1, 1]`, `y = [5, 7]` (identical xs, distinct
ys: the engine must fail). -/
theorem C4_degenerate_iff_witness :
    2 ≤ ([1, 1] : List ℚ).length ∧ calculateRegression [1, 1] [5, 7] = none :=
  ⟨by norm_num,
    (C4_degenerate_iff [1, 1] [5, 7] (by norm_num)).mpr (by
      intro i hi
      have h2i : i < 2 := by simpa using hi
      interval_cases i <;> rfl)⟩

/-- **C5.** On non-empty input the outlier detector returns the index of
the strictly maximal squared residual — the first such index when several
attain the maximum — together with the house number stored at that index;
it identifies exactly one candidate per invocation. -/
theorem C5_outlier_argmax (xp y : List ℚ) (xv : List ℤ) (m c : ℚ)
    (h : xv ≠ []) :
    ∃ k : ℕ, k < xv.length ∧
      findOutlierByResidual xp y xv m c = ⟨xv.get? k, (k : ℤ)⟩ ∧
      (∀ j < xv.length, residualSq xp y m c j ≤ residualSq xp y m c k) ∧
      (∀ j < k, residualSq xp y m c j < residualSq xp y m c k) :=
  findOutlierByResidual_spec xp y xv m c h

/-- Witness for C5 on the spec §8 dataset [(1,1),(2,2),(3,30)] under the
line `y = x`: the detector must select index 2. -/
theorem C5_outlier_argmax_witness :
    (([1, 2, 3] : List ℤ) ≠ []) ∧
    ∃ k : ℕ, k < ([1, 2, 3] : List ℤ).length ∧
      findOutlierByResidual [1, 2, 30] [1, 2, 30] [1, 2, 3] 1 0 =
        ⟨([1, 2, 3] : List ℤ).get? k, (k : ℤ)⟩ ∧
      (∀ j < ([1, 2, 3] : List ℤ).length,
        residualSq [1, 2, 30] [1, 2, 30] 1 0 j ≤ residualSq [1, 2, 30] [1, 2, 30] 1 0 k) ∧
      (∀ j < k,
        residualSq [1, 2, 30] [1, 2, 30] 1 0 j < residualSq [1, 2, 30] [1, 2, 30] 1 0 k) :=
  ⟨by decide, C5_outlier_argmax [1, 2, 30] [1, 2, 30] [1, 2, 3] 1 0 (by decide)⟩

/-- **C9.** Whenever the engine returns a fit (so: at least 2 points and
non-zero x-variance), the returned R² lies in `[0, 1]` — in exact rational
arithmetic the OLS residual sum of squares never exceeds the total sum of
squares, and both special-case branches return 0 or 1. -/
theorem C9_r2_in_unit_interval (x y : List ℚ) (hy : y.length = x.length)
    (fit : FitResult) (h : calculateRegression x y = some fit) :
    0 ≤ fit.r2 ∧ fit.r2 ≤ 1 := by
  obtain ⟨h2, hden, rfl⟩ := (calculateRegression_eq_some_iff x y fit).mp h
  exact r2_mem_unit x y hy hden

/-- Witness for C9 on the spec §8 example's initial fit. -/
theorem C9_r2_in_unit_interval_witness :
    (([100, 102, 200] : List ℚ).length = ([1, 2, 3] : List ℚ).length ∧
      calculateRegression [1, 2, 3] [100, 102, 200] = some ⟨50, 34, 625 / 817⟩) ∧
    (0 ≤ (625 / 817 : ℚ) ∧ (625 / 817 : ℚ) ≤ 1) :=
  ⟨⟨rfl, samples0_fit0⟩,
    C9_r2_in_unit_interval [1, 2, 3] [100, 102, 200] rfl ⟨50, 34, 625 / 817⟩ samples0_fit0⟩

/-- **C10.** The final predicted title number is `jsRound` (JavaScript
`Math.round`, i.e. `⌊q + 1/2⌋`, half toward positive infinity) of the raw
value `slope·x'_target + intercept`; on the boundary, `105.5` rounds to
`106` and `-0.5` rounds to `0`, not `-1` — round-half-up, not
round-half-away-from-zero. -/
theorem C10_round_half_up :
    (∀ (samples : List Sample) (t : ℤ) (p : PredictionOutcome),
      predict samples t = Except.ok p →
      ∃ fin : FitResult, p.m = fin.m ∧ p.c = fin.c ∧
        p.finalResult = jsRound (fin.m * transform_fn (t.tmod 2) t + fin.c)) ∧
    jsRound (211 / 2) = 106 ∧ jsRound (-(1 / 2)) = 0 ∧ jsRound (-(1 / 2)) ≠ -1 := by
  refine ⟨?_, ?_, ?_, ?_⟩
  · intro samples t p h
    obtain ⟨fin, h1, h2, h3, -⟩ := predict_ok_shape samples t p h
    exact ⟨fin, h1, h2, h3⟩
  · rw [jsRound]; norm_num
  · rw [jsRound]; norm_num
  · rw [jsRound]; norm_num

/-- Witness for C10's universally quantified conjunct, at the spec §8
example. -/
theorem C10_round_half_up_witness :
    predict samples0 8 =
      Except.ok ⟨250, 50, 50, AnalysisLevel.info, 100, 62500 / 817, some 4⟩ ∧
    ∃ fin : FitResult, (50 : ℚ) = fin.m ∧ (50 : ℚ) = fin.c ∧
      (250 : ℤ) = jsRound (fin.m * transform_fn ((8 : ℤ).tmod 2) 8 + fin.c) :=
  ⟨samples0_predict,
    C10_round_half_up.1 samples0 8
      ⟨250, 50, 50, AnalysisLevel.info, 100, 62500 / 817, some 4⟩ samples0_predict⟩

/-- **C7.** The parity partition retains exactly the samples whose house
number has the same parity as the target (for the spec's domain of
non-negative house numbers, where the JS `%` agrees with mathematical
parity), the required-parity word is `"even"`/`"odd"` according to the
target's parity, and the computation fails with the insufficient-data
error carrying that word — returning no prediction — iff fewer than 2
samples remain. -/
theorem C7_parity_partition (samples : List Sample) (t : ℤ)
    (hs : ∀ s ∈ samples, 0 ≤ s.house) (ht : 0 ≤ t) :
    filteredSamples samples t = samples.filter (fun s => s.house % 2 = t % 2) ∧
    parityTypeOf (t.tmod 2) = (if t % 2 = 0 then "even" else "odd") ∧
    ((filteredSamples samples t).length < 2 ↔
      predict samples t =
        Except.error (PredictError.insufficientData (parityTypeOf (t.tmod 2)))) := by
  have ht2 : t.tmod 2 = t % 2 := tmod_two_eq_emod t ht
  refine ⟨?_, ?_, ?_⟩
  · rw [filteredSamples]
    apply List.filter_congr
    intro s hsmem
    rw [tmod_two_eq_emod s.house (hs s hsmem), ht2]
  · rw [parityTypeOf, ht2]
  · rw [← housesOf_length, predict_insufficient_iff, MIN_POINTS]

/-- **C2 (counterexample).** On the spec §8 example the initial fit is
`y = 50x + 34` (R² = 625/817 ≈ 76.5%), under which the *middle* sample
(house 4, title 102, squared residual 1024) — not the third one (squared
residual 256) — has the maximal squared residual: the detector returns
index 1, not index 2, and the final prediction is 250, not 106. -/
theorem C2_counterexample :
    calculateRegression (xPrimeOf samples0 8) (titlesOf samples0 8) =
      some ⟨50, 34, 625 / 817⟩ ∧
    (findOutlierByResidual (xPrimeOf samples0 8) (titlesOf samples0 8)
        (housesOf samples0 8) 50 34).outlier_index = 1 ∧
    ((1 : ℤ) ≠ 2) ∧
    Except.map (fun p => p.finalResult) (predict samples0 8) = Except.ok 250 ∧
    ((250 : ℤ) ≠ 106) := by
  refine ⟨samples0_fit0', ?_, by decide, ?_, by decide⟩
  · rw [samples0_xprime, samples0_titles, samples0_houses, samples0_outlier]
  · rw [samples0_predict]
    rfl

/-- **C2 (amended).** On samples (2,100), (4,102), (6,200) with target 8:
the x-values transform to [1,2,3]; the initial fit `⟨50, 34, 625/817⟩` is
below the 90% threshold; n = 3 triggers outlier removal; the detector
removes index **1** (house **4**), whose squared residual under the
initial fit is maximal; the re-fit on the remaining points (1,100),(3,200)
yields slope 50, intercept 50, R² = 1; the outcome is classified Note
(`info`), and the prediction at x' = 4 is 50·4+50 = **250**. -/
theorem C2_end_to_end :
    xPrimeOf samples0 8 = [1, 2, 3] ∧
    titlesOf samples0 8 = [100, 102, 200] ∧
    housesOf samples0 8 = [2, 4, 6] ∧
    calculateRegression (xPrimeOf samples0 8) (titlesOf samples0 8) =
      some ⟨50, 34, 625 / 817⟩ ∧
    (625 / 817 : ℚ) * 100 < 90 ∧
    3 ≤ (housesOf samples0 8).length ∧
    findOutlierByResidual (xPrimeOf samples0 8) (titlesOf samples0 8)
        (housesOf samples0 8) 50 34 = ⟨some 4, 1⟩ ∧
    removeAtJS 1 (xPrimeOf samples0 8) = [1, 3] ∧
    removeAtJS 1 (titlesOf samples0 8) = [100, 200] ∧
    calculateRegression [1, 3] [100, 200] = some ⟨50, 50, 1⟩ ∧
    (1 : ℚ) * 100 ≥ 90 ∧
    transform_fn ((8 : ℤ).tmod 2) 8 = 4 ∧
    jsRound (50 * 4 + 50) = 250 ∧
    predict samples0 8 =
      Except.ok ⟨250, 50, 50, AnalysisLevel.info, 100, 62500 / 817, some 4⟩ := by
  refine ⟨samples0_xprime, samples0_titles, samples0_houses, samples0_fit0', by norm_num,
    ?_, ?_, ?_, ?_, samples0_fitc, by norm_num, ?_, ?_, samples0_predict⟩
  · rw [samples0_houses]; decide
  · rw [samples0_xprime, samples0_titles, samples0_houses, samples0_outlier]
  · rw [samples0_xprime, samples0_removed_x]
  · rw [samples0_titles, samples0_removed_y]
  · rw [samples0_tmod]; norm_num [transform_fn]
  · rw [jsRound]; norm_num

/-- **C6.** One transform is selected by the target's parity — `x/2` for
an even target, `(x+1)/2` for an odd one — and the same parity-selected
function is applied to every retained sample's house number
(`xPrimeOf = map (transform_fn (t.tmod 2))`) and to the target before the
final prediction. -/
theorem C6_single_transform (samples : List Sample) (t : ℤ)
    (p : PredictionOutcome) (h : predict samples t = Except.ok p) :
    (t.tmod 2 = 0 → ∀ z : ℤ, transform_fn (t.tmod 2) z = (z : ℚ) / 2) ∧
    (t.tmod 2 ≠ 0 → ∀ z : ℤ, transform_fn (t.tmod 2) z = ((z : ℚ) + 1) / 2) ∧
    xPrimeOf samples t = (housesOf samples t).map (transform_fn (t.tmod 2)) ∧
    ∃ fin : FitResult, p.m = fin.m ∧ p.c = fin.c ∧
      p.finalResult = jsRound (fin.m * transform_fn (t.tmod 2) t + fin.c) := by
  refine ⟨?_, ?_, rfl, ?_⟩
  · intro h0 z
    rw [transform_fn, if_pos h0]
  · intro h0 z
    rw [transform_fn, if_neg h0]
  · obtain ⟨fin, h1, h2, h3, -⟩ := predict_ok_shape samples t p h
    exact ⟨fin, h1, h2, h3⟩

/-- Witness for C6 at the spec §8 example. -/
theorem C6_single_transform_witness :
    predict samples0 8 =
      Except.ok ⟨250, 50, 50, AnalysisLevel.info, 100, 62500 / 817, some 4⟩ ∧
    ((8 : ℤ).tmod 2 = 0 → ∀ z : ℤ, transform_fn ((8 : ℤ).tmod 2) z = (z : ℚ) / 2) ∧
    xPrimeOf samples0 8 = (housesOf samples0 8).map (transform_fn ((8 : ℤ).tmod 2)) ∧
    ∃ fin : FitResult, (50 : ℚ) = fin.m ∧ (50 : ℚ) = fin.c ∧
      (250 : ℤ) = jsRound (fin.m * transform_fn ((8 : ℤ).tmod 2) 8 + fin.c) := by
  have H := C6_single_transform samples0 8
    ⟨250, 50, 50, AnalysisLevel.info, 100, 62500 / 817, some 4⟩ samples0_predict
  exact ⟨samples0_predict, H.1, H.2.2.1, H.2.2.2⟩

/-- **C8.** Index pairing is preserved through the pipeline: `housesOf`,
`titlesOf` and `xPrimeOf` all have the length of the filtered sample list;
at every index the house, the title and the transformed coordinate come
from the same retained sample; and removing index `k` (as the outlier
step does on both coordinate arrays) yields arrays of length `n - 1`
whose remaining entries are the original ones under the common index
embedding `j ↦ if j < k then j else j + 1`. -/
theorem C8_lockstep_pairing (samples : List Sample) (t : ℤ) (k : ℕ)
    (hk : k < (housesOf samples t).length) :
    ((housesOf samples t).length = (filteredSamples samples t).length ∧
      (titlesOf samples t).length = (filteredSamples samples t).length ∧
      (xPrimeOf samples t).length = (housesOf samples t).length) ∧
    (∀ i < (filteredSamples samples t).length,
      (housesOf samples t).getD i 0 =
        ((filteredSamples samples t).getD i ⟨0, 0⟩).house ∧
      (titlesOf samples t).getD i 0 =
        (((filteredSamples samples t).getD i ⟨0, 0⟩).title : ℚ) ∧
      (xPrimeOf samples t).getD i 0 =
        transform_fn (t.tmod 2) ((housesOf samples t).getD i 0)) ∧
    ((removeAtJS (k : ℤ) (xPrimeOf samples t)).length =
        (housesOf samples t).length - 1 ∧
      (removeAtJS (k : ℤ) (titlesOf samples t)).length =
        (housesOf samples t).length - 1 ∧
      ∀ j < (housesOf samples t).length - 1,
        (removeAtJS (k : ℤ) (xPrimeOf samples t)).getD j 0 =
          (xPrimeOf samples t).getD (if j < k then j else j + 1) 0 ∧
        (removeAtJS (k : ℤ) (titlesOf samples t)).getD j 0 =
          (titlesOf samples t).getD (if j < k then j else j + 1) 0) := by
  have hH := housesOf_length samples t
  have hT := titlesOf_length samples t
  have hX := xPrimeOf_length samples t
  refine ⟨⟨hH, hT, hX⟩, ?_, ?_, ?_, ?_⟩
  · intro i hi
    refine ⟨?_, ?_, ?_⟩
    · rw [housesOf]
      exact getD_map_of_lt (fun s => s.house) _ i 0 ⟨0, 0⟩ hi
    · rw [titlesOf]
      exact getD_map_of_lt (fun s => (s.title : ℚ)) _ i 0 ⟨0, 0⟩ hi
    · rw [xPrimeOf]
      have hi2 : i < (housesOf samples t).length := by omega
      rw [getD_map_of_lt _ _ i 0 0 hi2]
  · rw [removeAtJS_eq_eraseIdx, List.length_eraseIdx_of_lt (by omega), hX]
  · rw [removeAtJS_eq_eraseIdx, List.length_eraseIdx_of_lt (by omega), hT, hH]
  · intro j hj
    rw [removeAtJS_eq_eraseIdx, removeAtJS_eq_eraseIdx]
    constructor
    · split_ifs with hjk
      · exact eraseIdx_getD_of_lt _ k j 0 hjk
      · exact eraseIdx_getD_of_ge _ k j 0 (by omega)
    · split_ifs with hjk
      · exact eraseIdx_getD_of_lt _ k j 0 hjk
      · exact eraseIdx_getD_of_ge _ k j 0 (by omega)

/-- Witness for C8 at the spec §8 example with `k = 1`. -/
theorem C8_lockstep_pairing_witness :
    (1 < (housesOf samples0 8).length) ∧
    (removeAtJS ((1 : ℕ) : ℤ) (xPrimeOf samples0 8)).length =
      (housesOf samples0 8).length - 1 ∧
    (removeAtJS ((1 : ℕ) : ℤ) (titlesOf samples0 8)).length =
      (housesOf samples0 8).length - 1 := by
  have hk : 1 < (housesOf samples0 8).length := by
    rw [samples0_houses]; decide
  have H := C8_lockstep_pairing samples0 8 1 hk
  exact ⟨hk, H.2.2.1, H.2.2.2.1⟩

/-- **C1.** When the initial fit's confidence `r2·100` is below 90 and at
least 3 matching-parity samples exist, the orchestrator removes exactly
the single sample at the detector's index, re-fits on the remaining `n-1`
points, and adopts the corrected fit with outcome Note (`info`) — also
recording the excluded house — if and only if the re-fit succeeds with
confidence ≥ 90; in every other case (re-fit fails, or stays below 90)
the final fit is the ORIGINAL one and the outcome is Low (`warning`). -/
theorem C1_outlier_correction (samples : List Sample) (t : ℤ) (fit0 : FitResult)
    (h3 : 3 ≤ (housesOf samples t).length)
    (hreg : calculateRegression (xPrimeOf samples t) (titlesOf samples t) = some fit0)
    (hlow : fit0.r2 * 100 < 90) :
    ∃ k : ℕ,
      (findOutlierByResidual (xPrimeOf samples t) (titlesOf samples t)
          (housesOf samples t) fit0.m fit0.c).outlier_index = (k : ℤ) ∧
      k < (housesOf samples t).length ∧
      removeAtJS (k : ℤ) (xPrimeOf samples t) = (xPrimeOf samples t).eraseIdx k ∧
      removeAtJS (k : ℤ) (titlesOf samples t) = (titlesOf samples t).eraseIdx k ∧
      (removeAtJS (k : ℤ) (xPrimeOf samples t)).length =
        (housesOf samples t).length - 1 ∧
      predict samples t = Except.ok
        (match calculateRegression (removeAtJS (k : ℤ) (xPrimeOf samples t))
            (removeAtJS (k : ℤ) (titlesOf samples t)) with
        | some fitc =>
          if fitc.r2 * 100 ≥ 90 then
            { finalResult := jsRound (fitc.m * transform_fn (t.tmod 2) t + fitc.c)
              m := fitc.m
              c := fitc.c
              level := AnalysisLevel.info
              r2_percent := fitc.r2 * 100
              r2_percent_initial := fit0.r2 * 100
              excluded_house := (housesOf samples t).get? k }
          else
            { finalResult := jsRound (fit0.m * transform_fn (t.tmod 2) t + fit0.c)
              m := fit0.m
              c := fit0.c
              level := AnalysisLevel.warning
              r2_percent := fit0.r2 * 100
              r2_percent_initial := fit0.r2 * 100
              excluded_house := none }
        | none =>
          { finalResult := jsRound (fit0.m * transform_fn (t.tmod 2) t + fit0.c)
            m := fit0.m
            c := fit0.c
            level := AnalysisLevel.warning
            r2_percent := fit0.r2 * 100
            r2_percent_initial := fit0.r2 * 100
            excluded_house := none }) := by
  have hne : housesOf samples t ≠ [] := by
    apply List.length_pos.mp
    omega
  obtain ⟨k, hk, hout, -, -⟩ :=
    findOutlierByResidual_spec (xPrimeOf samples t) (titlesOf samples t)
      (housesOf samples t) fit0.m fit0.c hne
  have hkx : k < (xPrimeOf samples t).length := by
    rw [xPrimeOf_length]; omega
  refine ⟨k, by rw [hout], hk, removeAtJS_eq_eraseIdx _ k, removeAtJS_eq_eraseIdx _ k,
    ?_, ?_⟩
  · rw [removeAtJS_eq_eraseIdx, List.length_eraseIdx_of_lt hkx, xPrimeOf_length]
  · simp only [predict]
    rw [if_neg (by rw [MIN_POINTS]; omega)]
    simp only [hreg, hout]
    rw [if_pos (by rw [CONFIDENCE_THRESHOLD]; exact ⟨hlow, h3⟩)]
    cases hc : calculateRegression (removeAtJS (k : ℤ) (xPrimeOf samples t))
        (removeAtJS (k : ℤ) (titlesOf samples t)) with
    | none => rfl
    | some fitc =>
      simp only [CONFIDENCE_THRESHOLD]
      by_cases hge : fitc.r2 * 100 ≥ 90
      · rw [if_pos hge, if_pos hge]
      · rw [if_neg hge, if_neg hge]

/-- Witness for C1 at the spec §8 example (initial fit `⟨50, 34, 625/817⟩`,
confidence ≈ 76.5% < 90, three samples). -/
theorem C1_outlier_correction_witness :
    (3 ≤ (housesOf samples0 8).length ∧
      calculateRegression (xPrimeOf samples0 8) (titlesOf samples0 8) =
        some ⟨50, 34, 625 / 817⟩ ∧
      (FitResult.mk 50 34 (625 / 817)).r2 * 100 < 90) ∧
    ∃ k : ℕ,
      (findOutlierByResidual (xPrimeOf samples0 8) (titlesOf samples0 8)
          (housesOf samples0 8) (FitResult.mk 50 34 (625 / 817)).m
          (FitResult.mk 50 34 (625 / 817)).c).outlier_index = (k : ℤ) ∧
      k < (housesOf samples0 8).length := by
  have hA : 3 ≤ (housesOf samples0 8).length := by
    rw [samples0_houses]; decide
  have hC : (FitResult.mk 50 34 (625 / 817)).r2 * 100 < 90 := by norm_num
  obtain ⟨k, hk1, hk2, -⟩ :=
    C1_outlier_correction samples0 8 ⟨50, 34, 625 / 817⟩ hA samples0_fit0' hC
  exact ⟨⟨hA, samples0_fit0', hC⟩, k, hk1, hk2⟩

/-- Witness for C7 at the spec §8 samples with odd target 7 (no odd
houses: the partition empties and the insufficient-data error fires). -/
theorem C7_parity_partition_witness :
    ((∀ s ∈ samples0, 0 ≤ s.house) ∧ (0 : ℤ) ≤ 7) ∧
    (filteredSamples samples0 7 =
        samples0.filter (fun s => s.house % 2 = (7 : ℤ) % 2) ∧
      parityTypeOf ((7 : ℤ).tmod 2) = (if (7 : ℤ) % 2 = 0 then "even" else "odd") ∧
      ((filteredSamples samples0 7).length < 2 ↔
        predict samples0 7 =
          Except.error
            (PredictError.insufficientData (parityTypeOf ((7 : ℤ).tmod 2))))) :=
  ⟨⟨by decide, by decide⟩, C7_parity_partition samples0 7 (by decide) (by decide)⟩
